import Mathlib

/-!
Verification of the wmrc yearly aggregation engine.

Shallow embedding of the core numeric pipeline of the wmrc skid
(`src/wmrc/yearly.py`, `src/wmrc/validate.py`, `src/wmrc/summarize.py`,
and the record deduplicator exercised by `tests/test_helpers.py`).

Pandas/NumPy float cells are modelled by `PFloat`: an exact rational
value, NaN (the missing-value marker), or a signed infinity.  Arithmetic
follows IEEE-754 semantics on these symbolic values (NaN propagates,
`0/0 = NaN`, `x/0 = ±inf` for `x ≠ 0`, `inf - inf = NaN`, ...); signed
zeros and rounding do not occur because all finite values are exact
rationals.  `psum` models `pandas .sum()`, which skips NaN cells
(`skipna=True` default) and returns `0` for an empty column.
-/

/-- A pandas float cell: an exact rational, NaN, or a signed infinity. -/
inductive PFloat where
  | nan : PFloat
  | inf : PFloat
  | ninf : PFloat
  | val : ℚ → PFloat
deriving DecidableEq

namespace PFloat

/-- IEEE negation on `PFloat`. -/
def neg : PFloat → PFloat
  | nan => nan
  | inf => ninf
  | ninf => inf
  | val a => val (-a)

/-- IEEE addition on `PFloat`: NaN propagates, `inf + ninf = NaN`. -/
def add : PFloat → PFloat → PFloat
  | nan, _ => nan
  | _, nan => nan
  | inf, ninf => nan
  | ninf, inf => nan
  | inf, _ => inf
  | _, inf => inf
  | ninf, _ => ninf
  | _, ninf => ninf
  | val a, val b => val (a + b)

/-- IEEE multiplication on `PFloat`: NaN propagates, `inf * 0 = NaN`. -/
def mul : PFloat → PFloat → PFloat
  | nan, _ => nan
  | _, nan => nan
  | inf, inf => inf
  | inf, ninf => ninf
  | ninf, inf => ninf
  | ninf, ninf => inf
  | inf, val b => if 0 < b then inf else if b < 0 then ninf else nan
  | val a, inf => if 0 < a then inf else if a < 0 then ninf else nan
  | ninf, val b => if 0 < b then ninf else if b < 0 then inf else nan
  | val a, ninf => if 0 < a then ninf else if a < 0 then inf else nan
  | val a, val b => val (a * b)

/-- IEEE division on `PFloat`: NaN propagates, `0/0 = NaN`,
`x/0 = ±inf` for finite `x ≠ 0` (the zero divisor is `+0`),
`inf/inf = NaN`, finite `/ inf = 0`. -/
def div : PFloat → PFloat → PFloat
  | nan, _ => nan
  | _, nan => nan
  | inf, inf => nan
  | inf, ninf => nan
  | ninf, inf => nan
  | ninf, ninf => nan
  | inf, val b => if b < 0 then ninf else inf
  | ninf, val b => if b < 0 then inf else ninf
  | val _, inf => val 0
  | val _, ninf => val 0
  | val a, val b =>
      if b = 0 then (if 0 < a then inf else if a < 0 then ninf else nan)
      else val (a / b)

instance : Neg PFloat := ⟨neg⟩
instance : Add PFloat := ⟨add⟩
instance : Mul PFloat := ⟨mul⟩
instance : Div PFloat := ⟨div⟩

/-- IEEE subtraction, as addition of the negation. -/
def sub (a b : PFloat) : PFloat := a + (neg b)

instance : Sub PFloat := ⟨sub⟩

end PFloat

/-- Models the pandas column sum: folds `+` over the non-NaN cells, starting
from 0 (`skipna=True`; the sum of an empty or all-NaN column is 0). -/
def psum (l : List PFloat) : PFloat :=
  l.foldl (fun acc v => if v = PFloat.nan then acc else acc + v) (PFloat.val 0)

/-- Models `fillna(0)` on a single cell: NaN becomes 0, every other value
(including infinities) is kept. -/
def fillna0 (v : PFloat) : PFloat :=
  if v = PFloat.nan then PFloat.val 0 else v

/-! Embedding of `yearly.county_summaries` (src/wmrc/yearly.py lines 9-75).

A facility record carries the numeric columns the function reads, plus the
per-county percentage columns (looked up by county field name, mirroring the
dataframe's string-keyed column access) and the derived `msw_modifier`
column, which is `none` while that column is absent from the dataframe. -/

structure FacilityRecord where
  msw : PFloat                    -- Municipal_Solid_Waste__c
  recycled : PFloat               -- Combined_Total_of_Material_Recycled__c
  composted : PFloat              -- Total_Materials_sent_to_composting__c
  digested : PFloat               -- Total_Material_managed_by_ADC__c
  instateTons : PFloat            -- Municipal_Waste_In_State_in_Tons__c
  countyPct : String → PFloat     -- one 0-100 share column per county field
  mswModifier : Option PFloat     -- the derived msw_modifier column, if present

/-- Models `year_df["msw_modifier"] = year_df["Municipal_Solid_Waste__c"] / 100`
(yearly.py line 39) — an in-place mutation of the input dataframe. -/
def setMswModifier (r : FacilityRecord) : FacilityRecord :=
  { r with mswModifier := some (r.msw / PFloat.val 100) }

/-- The four per-county category totals (one column of the summary table). -/
structure CatSums where
  recycled : PFloat
  composted : PFloat
  digested : PFloat
  landfilled : PFloat
deriving DecidableEq

/-- One row of the county summary table returned by `county_summaries`. -/
structure CountyRow where
  name : String
  recycled : PFloat               -- county_wide_msw_recycled
  composted : PFloat              -- county_wide_msw_composted
  digested : PFloat               -- county_wide_msw_digested
  landfilled : PFloat             -- county_wide_msw_landfilled
  divertedTotal : PFloat          -- county_wide_msw_diverted_total
  recyclingRate : PFloat          -- county_wide_msw_recycling_rate
deriving DecidableEq

/-- A throwaway default row for positional `getD` access to summary tables. -/
def dummyRow : CountyRow :=
  ⟨"", PFloat.val 0, PFloat.val 0, PFloat.val 0, PFloat.val 0, PFloat.val 0, PFloat.val 0⟩

/-- Per-county category sums over the (already mutated) year dataframe:
the loop body of yearly.py lines 42-52 followed by the per-county `.sum()`
of lines 56-59.  `year_df'` is the frame after the `msw_modifier`
assignment, so the modifier column is read back from the record. -/
def countyCatSums (year_df' : List FacilityRecord) (c : String) : CatSums :=
  { recycled := psum (year_df'.map fun r =>
      r.countyPct c / PFloat.val 100 * r.mswModifier.getD PFloat.nan * r.recycled)
    composted := psum (year_df'.map fun r =>
      r.countyPct c / PFloat.val 100 * r.mswModifier.getD PFloat.nan * r.composted)
    digested := psum (year_df'.map fun r =>
      r.countyPct c / PFloat.val 100 * r.mswModifier.getD PFloat.nan * r.digested)
    landfilled := psum (year_df'.map fun r =>
      r.countyPct c / PFloat.val 100 * r.instateTons) }

/-- Derived columns of yearly.py lines 64-73: `diverted_total` and
`recycling_rate` computed on one (labelled) row of category sums. -/
def mkCountyRow (p : String × CatSums) : CountyRow :=
  { name := p.1
    recycled := p.2.recycled
    composted := p.2.composted
    digested := p.2.digested
    landfilled := p.2.landfilled
    divertedTotal := p.2.recycled + p.2.composted + p.2.digested
    recyclingRate := (p.2.recycled + p.2.composted + p.2.digested)
      / ((p.2.recycled + p.2.composted + p.2.digested) + p.2.landfilled)
      * PFloat.val 100 }

/-- Embedding of `yearly.county_summaries`.  Returns the post-call state of
the input dataframe (which the function mutates by assigning the
`msw_modifier` column) together with the summary table: per-county sums of
`county/100 * msw_modifier * {recycled, composted, digested}` and
`county/100 * instate_tons` (landfilled, no MSW modifier), a synthetic
"Statewide" row summing the county rows, then `diverted_total` and
`recycling_rate = diverted/(diverted+landfilled)*100` on every row. -/
def countySummaries (year_df : List FacilityRecord) (county_fields : List String) :
    List FacilityRecord × List CountyRow :=
  let year_df' := year_df.map setMswModifier
  let base := county_fields.map (fun c => (c, countyCatSums year_df' c))
  let statewide : String × CatSums :=
    ("Statewide",
      { recycled := psum (base.map fun p => p.2.recycled)
        composted := psum (base.map fun p => p.2.composted)
        digested := psum (base.map fun p => p.2.digested)
        landfilled := psum (base.map fun p => p.2.landfilled) })
  (year_df', (base ++ [statewide]).map mkCountyRow)

/-- A facility record whose numeric cells are all present (exact rationals):
the fully-reported case used to state the allocation formulas over ℚ. -/
structure QRecord where
  msw : ℚ
  recycled : ℚ
  composted : ℚ
  digested : ℚ
  instateTons : ℚ
  countyPct : String → ℚ

/-- Injects a fully-reported record into the dataframe cell model (no
`msw_modifier` column yet, as on entry to `county_summaries`). -/
def QRecord.toFacilityRecord (q : QRecord) : FacilityRecord :=
  { msw := PFloat.val q.msw
    recycled := PFloat.val q.recycled
    composted := PFloat.val q.composted
    digested := PFloat.val q.digested
    instateTons := PFloat.val q.instateTons
    countyPct := fun c => PFloat.val (q.countyPct c)
    mswModifier := none }

/-! Embedding of `yearly.statewide_metrics` (src/wmrc/yearly.py lines 220-250). -/

/-- The single statewide metrics row produced by `statewide_metrics`. -/
structure StatewideRow where
  recycled : PFloat               -- statewide_msw_recycled
  composted : PFloat              -- statewide_msw_composted
  digested : PFloat               -- statewide_msw_digested
  landfilled : PFloat             -- statewide_msw_landfilled
  divertedTotal : PFloat          -- statewide_msw_diverted_total
  recyclingRate : PFloat          -- statewide_msw_recycling_rate
deriving DecidableEq

/-- Row filter of `drop(index=["Out of State", "Statewide"], errors="ignore")`. -/
def inStateName (n : String) : Bool :=
  !(n == "Out of State") && !(n == "Statewide")

/-- Embedding of `yearly.statewide_metrics`: drop the rows labelled
"Out of State" and "Statewide", sum the four category columns over the
remaining county rows, and recompute `diverted_total` and the recycling
rate from those sums. -/
def statewideMetrics (county_year_df : List CountyRow) : StatewideRow :=
  let in_state_only := county_year_df.filter (fun r => inStateName r.name)
  let recycled := psum (in_state_only.map (fun r => r.recycled))
  let composted := psum (in_state_only.map (fun r => r.composted))
  let digested := psum (in_state_only.map (fun r => r.digested))
  let landfilled := psum (in_state_only.map (fun r => r.landfilled))
  let diverted := recycled + composted + digested
  { recycled := recycled
    composted := composted
    digested := digested
    landfilled := landfilled
    divertedTotal := diverted
    recyclingRate := diverted / (diverted + landfilled) * PFloat.val 100 }

/-! Embedding of `summarize.counties` (src/wmrc/summarize.py lines 15-34). -/

/-- One Salesforce record together with its `Calendar_Year__c` groupby key.
The year is already an integer; `helpers.convert_to_int` (whose definition
is not part of this snapshot's helpers.py) is therefore the identity here. -/
structure SFYearRecord where
  calendarYear : Int
  record : FacilityRecord

/-- Partition of the records by `Calendar_Year__c`, as a list of
(year, year-slice) groups.  Group keys appear in first-occurrence order
(pandas sorts the keys; no claim depends on the group order). -/
def groupByYear (records : List SFYearRecord) : List (Int × List FacilityRecord) :=
  ((records.map (fun r => r.calendarYear)).dedup).map (fun y =>
    (y, records.filterMap (fun r => if r.calendarYear = y then some r.record else none)))

/-- One row of the county report delivered by `summarize.counties`. -/
structure CountyOutRow where
  name : String
  dataYear : Int
  recycled : PFloat
  composted : PFloat
  digested : PFloat
  landfilled : PFloat
  divertedTotal : PFloat
  recyclingRate : PFloat
deriving DecidableEq

/-- Replaces non-overlapping occurrences of `pat` left-to-right by `rep`
(Python `str.replace` on the character list); the fuel is the remaining
length, and each step consumes at least one character. -/
def replaceFuel (pat rep : List Char) : Nat → List Char → List Char
  | 0, s => s
  | _ + 1, [] => []
  | fuel + 1, c :: cs =>
    if ((c :: cs).take pat.length == pat) && !pat.isEmpty then
      rep ++ replaceFuel pat rep fuel ((c :: cs).drop pat.length)
    else
      c :: replaceFuel pat rep fuel cs

/-- Models Python `s.replace(pat, rep)` for nonempty `pat`. -/
def pyReplace (s pat rep : String) : String :=
  ⟨replaceFuel pat.data rep.data s.data.length s.data⟩

/-- Index relabelling of summarize.py line 30:
`name.replace("__c", "").replace("_", " ")`. -/
def displayCountyName (n : String) : String :=
  pyReplace (pyReplace n "__c" "") "_" " "

/-- Embedding of `summarize.counties`: run `county_summaries` on each
calendar-year group, relabel county names for display, keep the year as the
`data_year` column, and apply `fillna(0)` to the whole table before
returning it. -/
def counties (records : List SFYearRecord) (county_fields : List String) :
    List CountyOutRow :=
  (groupByYear records).flatMap (fun g =>
    ((countySummaries g.2 county_fields).2).map (fun row =>
      { name := displayCountyName row.name
        dataYear := g.1
        recycled := fillna0 row.recycled
        composted := fillna0 row.composted
        digested := fillna0 row.digested
        landfilled := fillna0 row.landfilled
        divertedTotal := fillna0 row.divertedTotal
        recyclingRate := fillna0 row.recyclingRate }))

/-! Embedding of `yearly.rates_per_material` and its helpers
(src/wmrc/yearly.py lines 138-217).

The final display relabelling of the material column (the regex searches and
string replacements of yearly.py lines 177-189) is pure relabelling of the
row keys and is not modelled; the rows below keep their Salesforce field
names.  No claim depends on the display labels. -/

/-- One record as read by `rates_per_material`: its `Classifications__c`
value and its numeric columns, looked up by Salesforce field name. -/
structure MatRecord where
  classifications : String
  col : String → PFloat

/-- Embedding of `yearly._update_fields`: move `Out_of_State__c` and
`Municipal_Solid_Waste__c` to the end of the field list (removing them
first if present; the Python version mutates the list argument in place). -/
def updateFields (fields : List String) : List String :=
  ((fields.erase "Out_of_State__c") ++ ["Out_of_State__c"]).erase "Municipal_Solid_Waste__c"
    ++ ["Municipal_Solid_Waste__c"]

/-- Embedding of `yearly._update_classification`: recycling additionally
includes non-permitted recycling facilities.  (For any other label the
Python version returns the bare string unchanged; callers only ever pass
the two labels handled here, modelled as the singleton list.) -/
def updateClassification (c : String) : List String :=
  if c = "Recycling" then ["Recycling", "Recycling Facility Non-Permitted"]
  else if c = "Composts" then ["Composts"]
  else [c]

/-- Embedding of `yearly.rates_per_material`: filter the year's records to
the classification labels, apply `fillna(0)` to every read cell, then for
every field except the trailing out-of-state and MSW modifier fields sum
`(100 - out_of_state)/100 * msw/100 * field` over the records, and divide
each amount by the amount of `total_field`.  Rows are (field, amount,
percent); reading a `total_field` absent from the computed rows is a pandas
`.loc` KeyError, modelled as a NaN divisor. -/
def ratesPerMaterial (year_df : List MatRecord) (classification : String)
    (fields : List String) (total_field : String) :
    List (String × PFloat × PFloat) :=
  let needed_fields := updateFields fields
  let cls := updateClassification classification
  let subset := year_df.filter (fun r => cls.contains r.classifications)
  let getF := fun (r : MatRecord) (c : String) => fillna0 (r.col c)
  let sums := (needed_fields.dropLast.dropLast).map (fun c =>
    (c, psum (subset.map (fun r =>
      (PFloat.val 100 - getF r "Out_of_State__c") / PFloat.val 100
        * getF r "Municipal_Solid_Waste__c" / PFloat.val 100 * getF r c))))
  let totalAmount := (sums.lookup total_field).getD PFloat.nan
  sums.map (fun p => (p.1, p.2, p.2 / totalAmount))

/-! Embedding of `validate._year_over_year_changes`
(src/wmrc/validate.py lines 98-137). -/

/-- An aggregated metrics table indexed by (year, entity), with one numeric
cell per metric column, in the order of `cols`. -/
structure MetricsTable where
  cols : List String
  rows : List (Int × String × List PFloat)
deriving DecidableEq

/-- The comparison table produced by `_year_over_year_changes`: one row per
entity, cells in the order of `cols`. -/
structure YoYOut where
  cols : List String
  rows : List (String × List PFloat)
deriving DecidableEq

/-- Models `metrics_df.loc[y]`: the rows of year `y`, year level dropped,
in table order. -/
def yearSlice (t : MetricsTable) (y : Int) : List (String × List PFloat) :=
  t.rows.filterMap (fun r => if r.1 = y then some (r.2.1, r.2.2) else none)

/-- Reads the cell of entity `e` at column position `i` from a year slice;
an absent entity (or column) reads as NaN, which is what pandas index
alignment inserts for labels present on only one side. -/
def cellAt (slice : List (String × List PFloat)) (e : String) (i : Nat) : PFloat :=
  match slice.lookup e with
  | some vs => vs.getD i PFloat.nan
  | none => PFloat.nan

/-- Round-based interleaving with explicit fuel: each round emits the heads
of all non-exhausted lists, then continues on their tails. -/
def interleaveRounds {α : Type} : Nat → List (List α) → List α
  | 0, _ => []
  | fuel + 1, ls =>
    let live := ls.filter (fun l => !l.isEmpty)
    if live.isEmpty then []
    else live.filterMap List.head? ++ interleaveRounds fuel (live.map List.tail)

/-- Models `toolz.interleave`: round-robin through the lists, dropping each
list as it is exhausted.  The fuel bound is large enough to never run out. -/
def interleave {α : Type} (ls : List (List α)) : List α :=
  interleaveRounds ((ls.map List.length).sum + 1) ls

/-- Embedding of `validate._year_over_year_changes`: check that the target
year and its predecessor occur in the year index level (else a
`ValueError`), then align the two year slices on the union of their entity
labels (alignment is modelled as first-match lookup, with NaN for absent
labels) and emit, per metric column, the four derived columns
`pct_change`, current value, previous value, `diff`, interleaved per
metric via `toolz.interleave`. -/
def yoyChanges (metrics_df : MetricsTable) (current_year : Int) :
    Except String YoYOut :=
  let previous_year := current_year - 1
  if metrics_df.rows.all (fun r => !(r.1 == current_year)) then
    Except.error "Current year not found in index"
  else if metrics_df.rows.all (fun r => !(r.1 == previous_year)) then
    Except.error "Previous year not found in index"
  else
    let cur := yearSlice metrics_df current_year
    let prev := yearSlice metrics_df previous_year
    let entities := ((cur.map Prod.fst) ++ (prev.map Prod.fst)).dedup
    let n := metrics_df.cols.length
    let pctCols := metrics_df.cols.map (fun c => c ++ "_pct_change")
    let curCols := metrics_df.cols.map (fun c => c ++ "_" ++ toString current_year)
    let prevCols := metrics_df.cols.map (fun c => c ++ "_" ++ toString previous_year)
    let diffCols := metrics_df.cols.map (fun c => c ++ "_diff")
    Except.ok
      { cols := interleave [pctCols, curCols, prevCols, diffCols]
        rows := entities.map (fun e =>
          let pcts := (List.range n).map (fun i =>
            (cellAt cur e i - cellAt prev e i) / cellAt prev e i * PFloat.val 100)
          let curs := (List.range n).map (fun i => cellAt cur e i)
          let prevs := (List.range n).map (fun i => cellAt prev e i)
          let diffs := (List.range n).map (fun i => cellAt cur e i - cellAt prev e i)
          (e, interleave [pcts, curs, prevs, diffs])) }

/-! Model of the record deduplicator.  Modelled from the spec: the
implementation of `SalesForceRecords.deduplicate_records_on_facility_id` is
absent from this snapshot's `helpers.py` (only its tests in
`tests/test_helpers.py` remain), so the algorithm is taken from spec §4.1:
sort the table by `last_modified_at` ascending with a stable sort, then
drop all but the last occurrence of each (facility_id, calendar_year) key. -/

/-- One raw annual-report row as seen by the deduplicator. -/
structure SFRecord where
  facilityId : String             -- facility_id
  calendarYear : String           -- Calendar_Year__c
  lastModified : Int              -- LastModifiedDate (timestamps, totally ordered)
  payload : Int                   -- stand-in for the remaining data columns
deriving DecidableEq

/-- The deduplication key of a record. -/
def recKey (r : SFRecord) : String × String := (r.facilityId, r.calendarYear)

/-- Tests whether two records share the (facility_id, calendar_year) key. -/
def sameKey (r s : SFRecord) : Bool :=
  r.facilityId == s.facilityId && r.calendarYear == s.calendarYear

/-- Models `drop_duplicates(subset=..., keep="last")`: keep a row iff no
later row carries the same key. -/
def keepLast : List SFRecord → List SFRecord
  | [] => []
  | r :: rs => if rs.any (fun s => sameKey r s) then keepLast rs else r :: keepLast rs

/-- Modelled from the spec: `deduplicate_records_on_facility_id` (spec §4.1;
implementation absent from this snapshot's helpers.py).  Stable-sort by
`last_modified_at` ascending, then keep the last occurrence of each
(facility_id, calendar_year) key, so ties on the timestamp resolve to the
later original row. -/
def deduplicateRecordsOnFacilityId (rows : List SFRecord) : List SFRecord :=
  keepLast (rows.mergeSort (fun x y => decide (x.lastModified ≤ y.lastModified)))

/-! Arithmetic facts about the cell model. -/

namespace PFloat

@[simp] theorem val_add_val (a b : ℚ) : val a + val b = val (a + b) := rfl

@[simp] theorem val_mul_val (a b : ℚ) : val a * val b = val (a * b) := rfl

@[simp] theorem val_sub_val (a b : ℚ) : val a - val b = val (a - b) := by
  show sub _ _ = _
  simp [sub, neg, add]
  ring

theorem val_div_val {b : ℚ} (a : ℚ) (hb : b ≠ 0) : val a / val b = val (a / b) := by
  show div _ _ = _
  simp [div, hb]

@[simp] theorem val_div_hundred (a : ℚ) : val a / val 100 = val (a / 100) := by
  exact val_div_val a (by norm_num)

@[simp] theorem nan_add (a : PFloat) : nan + a = nan := by cases a <;> rfl

@[simp] theorem add_nan (a : PFloat) : a + nan = nan := by cases a <;> rfl

@[simp] theorem nan_mul (a : PFloat) : nan * a = nan := by cases a <;> rfl

@[simp] theorem mul_nan (a : PFloat) : a * nan = nan := by cases a <;> rfl

@[simp] theorem nan_div (a : PFloat) : nan / a = nan := by cases a <;> rfl

@[simp] theorem div_nan (a : PFloat) : a / nan = nan := by cases a <;> rfl

@[simp] theorem sub_nan (a : PFloat) : a - nan = nan := by cases a <;> rfl

@[simp] theorem nan_sub (a : PFloat) : nan - a = nan := by cases a <;> rfl

@[simp] theorem val_ne_nan (a : ℚ) : val a ≠ nan := by simp

@[simp] theorem zero_div_zero : val 0 / val 0 = nan := by
  show div _ _ = _
  simp [div]

end PFloat

@[simp] theorem psum_nil : psum [] = PFloat.val 0 := rfl

/-- Summing a column of exact rationals gives the exact rational sum. -/
theorem psum_map_val {α : Type} (f : α → ℚ) (l : List α) :
    psum (l.map (fun x => PFloat.val (f x))) = PFloat.val (l.map f).sum := by
  suffices h : ∀ (q : ℚ),
      (l.map (fun x => PFloat.val (f x))).foldl
        (fun acc v => if v = PFloat.nan then acc else acc + v) (PFloat.val q)
        = PFloat.val (q + (l.map f).sum) by
    simpa using h 0
  induction l with
  | nil => intro q; simp
  | cons x xs ih =>
      intro q
      simp only [List.map_cons, List.foldl_cons, List.sum_cons]
      rw [if_neg (by simp), PFloat.val_add_val, ih]
      ring_nf

theorem fillna0_ne_nan (v : PFloat) : fillna0 v ≠ PFloat.nan := by
  unfold fillna0
  split
  · simp
  · assumption

/-! Structure of the `county_summaries` output table. -/

/-- Positional access to the `i`-th county row of the summary table: for
`i < |county_fields|` it is the row of the `i`-th county field, built from
that county's category sums over the mutated frame. -/
theorem countySummaries_getD (df : List FacilityRecord) (cf : List String)
    (i : Nat) (h : i < cf.length) :
    (countySummaries df cf).2.getD i dummyRow
      = mkCountyRow (cf.getD i "", countyCatSums (df.map setMswModifier) (cf.getD i "")) := by
  have hlen : i < (cf.map (fun c => (c, countyCatSums (df.map setMswModifier) c))).length := by
    simpa using h
  have hg : cf.getD i "" = cf[i] := by
    rw [List.getD_eq_getElem?_getD, List.getElem?_eq_getElem h]
    rfl
  simp only [countySummaries]
  rw [List.getD_eq_getElem?_getD, List.getElem?_map, List.getElem?_append, if_pos hlen,
    List.getElem?_map, List.getElem?_eq_getElem h, hg]
  rfl

/-- C1: for every single-year table of fully-reported records and county
field list, `county_summaries` allocates each record's tonnage to the
`i`-th county by `recycled = county_percent/100 * (msw_percent/100) *
combined_total_recycled` and `landfilled = county_percent/100 *
municipal_waste_in_state_tons` (no MSW modifier), summed across records. -/
theorem countySummaries_allocates_shares (qrows : List QRecord) (cf : List String)
    (i : Nat) (h : i < cf.length) :
    ((countySummaries (qrows.map QRecord.toFacilityRecord) cf).2.getD i dummyRow).recycled
      = PFloat.val ((qrows.map (fun q =>
          q.countyPct (cf.getD i "") / 100 * (q.msw / 100) * q.recycled)).sum)
    ∧ ((countySummaries (qrows.map QRecord.toFacilityRecord) cf).2.getD i dummyRow).landfilled
      = PFloat.val ((qrows.map (fun q =>
          q.countyPct (cf.getD i "") / 100 * q.instateTons)).sum) := by
  rw [countySummaries_getD _ _ _ h]
  have hrec : ((qrows.map QRecord.toFacilityRecord).map setMswModifier).map
      (fun r => r.countyPct (cf.getD i "") / PFloat.val 100
        * r.mswModifier.getD PFloat.nan * r.recycled)
      = qrows.map (fun q =>
          PFloat.val (q.countyPct (cf.getD i "") / 100 * (q.msw / 100) * q.recycled)) := by
    rw [List.map_map, List.map_map]
    apply List.map_congr_left
    intro q _
    simp [Function.comp, setMswModifier, QRecord.toFacilityRecord]
  have hland : ((qrows.map QRecord.toFacilityRecord).map setMswModifier).map
      (fun r => r.countyPct (cf.getD i "") / PFloat.val 100 * r.instateTons)
      = qrows.map (fun q =>
          PFloat.val (q.countyPct (cf.getD i "") / 100 * q.instateTons)) := by
    rw [List.map_map, List.map_map]
    apply List.map_congr_left
    intro q _
    simp [Function.comp, setMswModifier, QRecord.toFacilityRecord]
  constructor
  · show (countyCatSums ((qrows.map QRecord.toFacilityRecord).map setMswModifier)
        (cf.getD i "")).recycled = _
    rw [countyCatSums, hrec, psum_map_val]
  · show (countyCatSums ((qrows.map QRecord.toFacilityRecord).map setMswModifier)
        (cf.getD i "")).landfilled = _
    rw [countyCatSums, hland, psum_map_val]

/-- C1 witness: the spec's literal scenario — one record with MSW 50%,
combined total recycled 10 tons, split 50/50 between two counties — puts
`0.5 * 0.5 * 10 = 2.5` recycled tons in the first county. -/
theorem countySummaries_allocates_shares_witness :
    0 < (["A", "B"] : List String).length
    ∧ ((countySummaries ([(⟨50, 10, 0, 0, 0, fun _ => 50⟩ : QRecord)].map
          QRecord.toFacilityRecord) ["A", "B"]).2.getD 0 dummyRow).recycled
        = PFloat.val (5 / 2)
    ∧ ((countySummaries ([(⟨50, 10, 0, 0, 0, fun _ => 50⟩ : QRecord)].map
          QRecord.toFacilityRecord) ["A", "B"]).2.getD 0 dummyRow).landfilled
        = PFloat.val 0 := by
  refine ⟨by norm_num, ?_, ?_⟩
  · exact ((countySummaries_allocates_shares [⟨50, 10, 0, 0, 0, fun _ => 50⟩]
      ["A", "B"] 0 (by norm_num)).1).trans (congrArg PFloat.val (by norm_num))
  · exact ((countySummaries_allocates_shares [⟨50, 10, 0, 0, 0, fun _ => 50⟩]
      ["A", "B"] 0 (by norm_num)).2).trans (congrArg PFloat.val (by norm_num))

/-- C6: for every row of the county summary whose `diverted_total` and
`landfilled` are both 0, the recycling rate computed by `county_summaries`
is NaN (a missing value), not 0 and not an error: the 0/0 division
propagates as NaN. -/
theorem countySummaries_rate_nan_when_zero (df : List FacilityRecord)
    (cf : List String) (row : CountyRow) (hmem : row ∈ (countySummaries df cf).2)
    (hd : row.divertedTotal = PFloat.val 0) (hl : row.landfilled = PFloat.val 0) :
    row.recyclingRate = PFloat.nan := by
  obtain ⟨p, _, hrow⟩ := List.mem_map.mp hmem
  rw [← hrow] at hd hl ⊢
  have hrate : (mkCountyRow p).recyclingRate
      = (mkCountyRow p).divertedTotal
        / ((mkCountyRow p).divertedTotal + (mkCountyRow p).landfilled)
        * PFloat.val 100 := rfl
  rw [hrate, hd, hl]
  simp

/-- C6 witness: an empty year table and a single county field produce a
county row with zero diverted and landfilled totals whose rate is NaN. -/
theorem countySummaries_rate_nan_when_zero_witness :
    mkCountyRow ("A", countyCatSums [] "A") ∈ (countySummaries [] ["A"]).2
    ∧ (mkCountyRow ("A", countyCatSums [] "A")).divertedTotal = PFloat.val 0
    ∧ (mkCountyRow ("A", countyCatSums [] "A")).landfilled = PFloat.val 0
    ∧ (mkCountyRow ("A", countyCatSums [] "A")).recyclingRate = PFloat.nan := by
  have h1 : mkCountyRow ("A", countyCatSums [] "A") ∈ (countySummaries [] ["A"]).2 := by
    simp [countySummaries]
  have h2 : (mkCountyRow ("A", countyCatSums [] "A")).divertedTotal = PFloat.val 0 := by
    simp [mkCountyRow, countyCatSums, psum]
  have h3 : (mkCountyRow ("A", countyCatSums [] "A")).landfilled = PFloat.val 0 := by
    simp [mkCountyRow, countyCatSums, psum]
  exact ⟨h1, h2, h3, countySummaries_rate_nan_when_zero [] ["A"] _ h1 h2 h3⟩

/-- C2: `statewide_metrics` sums each of the four tonnage columns over
exactly the rows named neither "Out of State" nor "Statewide" — inserting
an "Out of State" (or "Statewide") row anywhere changes nothing — and the
rate is recomputed from the filtered sums by
`diverted/(diverted+landfilled)*100`. -/
theorem statewideMetrics_excludes_out_of_state (l1 l2 : List CountyRow)
    (r : CountyRow) (h : r.name = "Out of State" ∨ r.name = "Statewide") :
    statewideMetrics (l1 ++ r :: l2) = statewideMetrics (l1 ++ l2)
    ∧ (statewideMetrics (l1 ++ r :: l2)).recycled
        = psum (((l1 ++ r :: l2).filter (fun row => inStateName row.name)).map
            (fun row => row.recycled))
    ∧ (statewideMetrics (l1 ++ r :: l2)).composted
        = psum (((l1 ++ r :: l2).filter (fun row => inStateName row.name)).map
            (fun row => row.composted))
    ∧ (statewideMetrics (l1 ++ r :: l2)).digested
        = psum (((l1 ++ r :: l2).filter (fun row => inStateName row.name)).map
            (fun row => row.digested))
    ∧ (statewideMetrics (l1 ++ r :: l2)).landfilled
        = psum (((l1 ++ r :: l2).filter (fun row => inStateName row.name)).map
            (fun row => row.landfilled))
    ∧ (statewideMetrics (l1 ++ r :: l2)).divertedTotal
        = (statewideMetrics (l1 ++ r :: l2)).recycled
          + (statewideMetrics (l1 ++ r :: l2)).composted
          + (statewideMetrics (l1 ++ r :: l2)).digested
    ∧ (statewideMetrics (l1 ++ r :: l2)).recyclingRate
        = (statewideMetrics (l1 ++ r :: l2)).divertedTotal
          / ((statewideMetrics (l1 ++ r :: l2)).divertedTotal
              + (statewideMetrics (l1 ++ r :: l2)).landfilled)
          * PFloat.val 100 := by
  have hpr : inStateName r.name = false := by
    rcases h with h | h <;> simp [inStateName, h]
  have hfilter : (l1 ++ r :: l2).filter (fun row => inStateName row.name)
      = (l1 ++ l2).filter (fun row => inStateName row.name) := by
    simp [List.filter_append, List.filter_cons, hpr]
  refine ⟨?_, rfl, rfl, rfl, rfl, rfl, rfl⟩
  unfold statewideMetrics
  rw [hfilter]

/-- C2 witness: a county table holding a nonzero "Out of State" row yields
the same statewide metrics as the table without that row. -/
theorem statewideMetrics_excludes_out_of_state_witness :
    ((⟨"Out of State", PFloat.val 100, PFloat.val 100, PFloat.val 100,
        PFloat.val 700, PFloat.val 0, PFloat.val 0⟩ : CountyRow).name = "Out of State"
      ∨ (⟨"Out of State", PFloat.val 100, PFloat.val 100, PFloat.val 100,
          PFloat.val 700, PFloat.val 0, PFloat.val 0⟩ : CountyRow).name = "Statewide")
    ∧ statewideMetrics
        ([(⟨"Cache", PFloat.val 1, PFloat.val 2, PFloat.val 3, PFloat.val 10,
            PFloat.val 0, PFloat.val 0⟩ : CountyRow)]
          ++ (⟨"Out of State", PFloat.val 100, PFloat.val 100, PFloat.val 100,
              PFloat.val 700, PFloat.val 0, PFloat.val 0⟩ : CountyRow) :: [])
      = statewideMetrics
        ([(⟨"Cache", PFloat.val 1, PFloat.val 2, PFloat.val 3, PFloat.val 10,
            PFloat.val 0, PFloat.val 0⟩ : CountyRow)] ++ []) :=
  ⟨Or.inl rfl, (statewideMetrics_excludes_out_of_state _ _ _ (Or.inl rfl)).1⟩

/-- C8 counterexample: `county_summaries` does not leave its input table
unchanged — it assigns the derived `msw_modifier` column in place, so after
the call the input table of a record without that column differs from what
was passed in. -/
theorem countySummaries_mutates_input_counterexample :
    (countySummaries [(⟨PFloat.val 0, PFloat.val 0, PFloat.val 0, PFloat.val 0,
        PFloat.val 0, fun _ => PFloat.val 0, none⟩ : FacilityRecord)] ["A"]).1.map
      (fun r => r.mswModifier)
    ≠ [(⟨PFloat.val 0, PFloat.val 0, PFloat.val 0, PFloat.val 0,
        PFloat.val 0, fun _ => PFloat.val 0, none⟩ : FacilityRecord)].map
      (fun r => r.mswModifier) := by
  simp [countySummaries, setMswModifier]

/-- C8 (amended): `county_summaries` mutates its input only by writing the
derived `msw_modifier` column; every other column is left unchanged, and
the computation is deterministic and stable under the mutation — running it
again on the post-call table (or on the same snapshot) returns the exact
same post-state and aggregate table. -/
theorem countySummaries_idempotent_mutation :
    (∀ (df : List FacilityRecord) (cf : List String),
        countySummaries ((countySummaries df cf).1) cf = countySummaries df cf)
    ∧ (∀ (df : List FacilityRecord) (cf : List String),
        (countySummaries df cf).1.map (fun r =>
          (r.msw, r.recycled, r.composted, r.digested, r.instateTons, r.countyPct))
        = df.map (fun r =>
          (r.msw, r.recycled, r.composted, r.digested, r.instateTons, r.countyPct))) := by
  constructor
  · intro df cf
    have hmap : ((df.map setMswModifier).map setMswModifier) = df.map setMswModifier := by
      rw [List.map_map]
      apply List.map_congr_left
      intro r _
      rfl
    simp only [countySummaries]
    rw [hmap]
  · intro df cf
    simp only [countySummaries]
    rw [List.map_map]
    apply List.map_congr_left
    intro r _
    rfl

/-- Every row of the `county_summaries` table satisfies the recycling-rate
equation over its own diverted and landfilled cells. -/
theorem countySummaries_rate_eq (df : List FacilityRecord) (cf : List String)
    (row : CountyRow) (hmem : row ∈ (countySummaries df cf).2) :
    row.recyclingRate
      = row.divertedTotal / (row.divertedTotal + row.landfilled) * PFloat.val 100 := by
  obtain ⟨p, _, hrow⟩ := List.mem_map.mp hmem
  rw [← hrow]
  rfl

/-- A cell that `fillna(0)` maps to 0 was either NaN or already 0. -/
theorem fillna0_eq_zero (x : PFloat) (hx : fillna0 x = PFloat.val 0) :
    x = PFloat.nan ∨ x = PFloat.val 0 := by
  by_cases h : x = PFloat.nan
  · exact Or.inl h
  · right
    rwa [fillna0, if_neg h] at hx

/-- C9: the county table returned by `summarize.counties` contains no
missing values — every cell is non-NaN because `fillna(0)` runs before the
table is returned — and in particular a row whose diverted and landfilled
totals read 0 reports a recycling rate of 0 (the NaN produced by the 0/0
rate is replaced by 0). -/
theorem counties_no_missing_values (records : List SFYearRecord) (cf : List String)
    (row : CountyOutRow) (hmem : row ∈ counties records cf) :
    (row.recycled ≠ PFloat.nan ∧ row.composted ≠ PFloat.nan
      ∧ row.digested ≠ PFloat.nan ∧ row.landfilled ≠ PFloat.nan
      ∧ row.divertedTotal ≠ PFloat.nan ∧ row.recyclingRate ≠ PFloat.nan)
    ∧ (row.divertedTotal = PFloat.val 0 → row.landfilled = PFloat.val 0 →
        row.recyclingRate = PFloat.val 0) := by
  obtain ⟨g, hg, hrow⟩ := List.mem_flatMap.mp hmem
  obtain ⟨crow, hcrow, hout⟩ := List.mem_map.mp hrow
  subst hout
  refine ⟨⟨fillna0_ne_nan _, fillna0_ne_nan _, fillna0_ne_nan _, fillna0_ne_nan _,
    fillna0_ne_nan _, fillna0_ne_nan _⟩, ?_⟩
  intro hd hl
  have hd' : fillna0 crow.divertedTotal = PFloat.val 0 := hd
  have hl' : fillna0 crow.landfilled = PFloat.val 0 := hl
  have hr := countySummaries_rate_eq g.2 cf crow hcrow
  show fillna0 crow.recyclingRate = PFloat.val 0
  rw [hr]
  rcases fillna0_eq_zero _ hd' with h1 | h1 <;> rcases fillna0_eq_zero _ hl' with h2 | h2 <;>
    rw [h1, h2] <;> simp [fillna0]

/-- C9 witness: a single 2023 record with all-zero tonnage yields a county
row whose cells are all 0 (none NaN), and whose 0/0 recycling rate comes
back as 0 rather than NaN. -/
theorem counties_no_missing_values_witness :
    ((⟨"A", 2023, PFloat.val 0, PFloat.val 0, PFloat.val 0, PFloat.val 0, PFloat.val 0,
        PFloat.val 0⟩ : CountyOutRow)
      ∈ counties [⟨2023, ⟨PFloat.val 0, PFloat.val 0, PFloat.val 0, PFloat.val 0,
          PFloat.val 0, fun _ => PFloat.val 0, none⟩⟩] ["A"])
    ∧ (((⟨"A", 2023, PFloat.val 0, PFloat.val 0, PFloat.val 0, PFloat.val 0, PFloat.val 0,
          PFloat.val 0⟩ : CountyOutRow).recycled ≠ PFloat.nan)
        ∧ ((⟨"A", 2023, PFloat.val 0, PFloat.val 0, PFloat.val 0, PFloat.val 0, PFloat.val 0,
            PFloat.val 0⟩ : CountyOutRow).recyclingRate = PFloat.val 0)) := by
  have hmem : ((⟨"A", 2023, PFloat.val 0, PFloat.val 0, PFloat.val 0, PFloat.val 0,
      PFloat.val 0, PFloat.val 0⟩ : CountyOutRow)
      ∈ counties [⟨2023, ⟨PFloat.val 0, PFloat.val 0, PFloat.val 0, PFloat.val 0,
          PFloat.val 0, fun _ => PFloat.val 0, none⟩⟩] ["A"]) := by
    norm_num [counties, groupByYear, countySummaries, countyCatSums, mkCountyRow,
      setMswModifier, psum, fillna0, displayCountyName, pyReplace, replaceFuel,
      Function.comp, List.filterMap_cons, List.dedup]
    exact Or.inl (by decide)
  refine ⟨hmem, ?_, ?_⟩
  · exact (counties_no_missing_values _ _ _ hmem).1.1
  · exact (counties_no_missing_values _ _ _ hmem).2 rfl rfl

/-- One interleaving round on four nonempty lists emits the four heads. -/
theorem interleaveRounds_cons4 {α : Type} (fuel : Nat) (a b c d : α)
    (as bs cs ds : List α) :
    interleaveRounds (fuel + 1) [a :: as, b :: bs, c :: cs, d :: ds]
      = a :: b :: c :: d :: interleaveRounds fuel [as, bs, cs, ds] := rfl

/-- Interleaving four columns derived from the same list produces the four
derived entries per element, element by element. -/
theorem interleave_four_maps {α β : Type} (f g h k : α → β) (xs : List α) :
    interleave [xs.map f, xs.map g, xs.map h, xs.map k]
      = xs.flatMap (fun x => [f x, g x, h x, k x]) := by
  have aux : ∀ (ys : List α) (fuel : Nat), ys.length ≤ fuel →
      interleaveRounds fuel [ys.map f, ys.map g, ys.map h, ys.map k]
        = ys.flatMap (fun x => [f x, g x, h x, k x]) := by
    intro ys
    induction ys with
    | nil =>
        intro fuel _
        cases fuel <;> rfl
    | cons x xs ih =>
        intro fuel hf
        cases fuel with
        | zero => simp at hf
        | succ fuel =>
            simp only [List.map_cons]
            rw [interleaveRounds_cons4, ih fuel (by simpa using Nat.le_of_succ_le_succ hf)]
            simp
  unfold interleave
  apply aux
  simp
  omega

/-- A table that holds a row of year `y` fails the all-rows-differ test. -/
theorem all_ne_year_eq_false {l : List (Int × String × List PFloat)} {y : Int}
    (h : ∃ r ∈ l, r.1 = y) : (l.all fun r => !(r.1 == y)) = false := by
  obtain ⟨r, hr, hry⟩ := h
  apply Bool.eq_false_iff.mpr
  intro hall
  have := List.all_eq_true.mp hall r hr
  simp [hry] at this

/-- When the target year and its predecessor both occur in the index,
`_year_over_year_changes` succeeds and returns the interleaved table over
the union of the two years' entity labels. -/
theorem yoyChanges_ok (t : MetricsTable) (y : Int)
    (hc : ∃ r ∈ t.rows, r.1 = y) (hp : ∃ r ∈ t.rows, r.1 = y - 1) :
    yoyChanges t y = Except.ok
      { cols := interleave [t.cols.map (fun c => c ++ "_pct_change"),
          t.cols.map (fun c => c ++ "_" ++ toString y),
          t.cols.map (fun c => c ++ "_" ++ toString (y - 1)),
          t.cols.map (fun c => c ++ "_diff")]
        rows := (((yearSlice t y).map Prod.fst)
            ++ ((yearSlice t (y - 1)).map Prod.fst)).dedup.map
          (fun e =>
            (e, interleave [
              (List.range t.cols.length).map (fun i =>
                (cellAt (yearSlice t y) e i - cellAt (yearSlice t (y - 1)) e i)
                  / cellAt (yearSlice t (y - 1)) e i * PFloat.val 100),
              (List.range t.cols.length).map (fun i => cellAt (yearSlice t y) e i),
              (List.range t.cols.length).map (fun i => cellAt (yearSlice t (y - 1)) e i),
              (List.range t.cols.length).map (fun i =>
                cellAt (yearSlice t y) e i - cellAt (yearSlice t (y - 1)) e i)])) } := by
  have h1 := all_ne_year_eq_false hc
  have h2 := all_ne_year_eq_false hp
  simp only [yoyChanges, h1, h2]
  rfl

/-- C4: when the target year and its predecessor are both present, the
comparator computes per entity `diff = current - previous` and
`pct_change = diff / previous * 100`, and the output interleaves the four
derived columns per metric in the fixed order (pct_change, current,
previous, diff), for the column names and the row cells alike. -/
theorem yoyChanges_diff_pct_column_order (t : MetricsTable) (y : Int)
    (hc : ∃ r ∈ t.rows, r.1 = y) (hp : ∃ r ∈ t.rows, r.1 = y - 1) :
    yoyChanges t y = Except.ok
      { cols := t.cols.flatMap (fun c =>
          [c ++ "_pct_change", c ++ "_" ++ toString y,
            c ++ "_" ++ toString (y - 1), c ++ "_diff"])
        rows := (((yearSlice t y).map Prod.fst)
            ++ ((yearSlice t (y - 1)).map Prod.fst)).dedup.map
          (fun e => (e, (List.range t.cols.length).flatMap (fun i =>
            [(cellAt (yearSlice t y) e i - cellAt (yearSlice t (y - 1)) e i)
                / cellAt (yearSlice t (y - 1)) e i * PFloat.val 100,
              cellAt (yearSlice t y) e i,
              cellAt (yearSlice t (y - 1)) e i,
              cellAt (yearSlice t y) e i - cellAt (yearSlice t (y - 1)) e i]))) } := by
  rw [yoyChanges_ok t y hc hp]
  refine congrArg Except.ok ?_
  rw [interleave_four_maps]
  refine congrArg _ ?_
  apply List.map_congr_left
  intro e _
  rw [interleave_four_maps]

/-- C4 witness: the spec's literal scenario — `msw_recycled` moving from
1.0 in 2022 to 5.0 in 2023 yields `diff = 4.0`, `pct_change = 400.0`, and
the four derived columns appear interleaved per metric. -/
theorem yoyChanges_diff_pct_column_order_witness :
    (∃ r ∈ (MetricsTable.mk ["msw_recycled"]
        [(2022, "SW01", [PFloat.val 1]), (2023, "SW01", [PFloat.val 5])]).rows,
      r.1 = 2023)
    ∧ (∃ r ∈ (MetricsTable.mk ["msw_recycled"]
        [(2022, "SW01", [PFloat.val 1]), (2023, "SW01", [PFloat.val 5])]).rows,
      r.1 = 2023 - 1)
    ∧ yoyChanges (MetricsTable.mk ["msw_recycled"]
        [(2022, "SW01", [PFloat.val 1]), (2023, "SW01", [PFloat.val 5])]) 2023
      = Except.ok
          { cols := ["msw_recycled_pct_change", "msw_recycled_2023",
              "msw_recycled_2022", "msw_recycled_diff"],
            rows := [("SW01",
              [PFloat.val 400, PFloat.val 5, PFloat.val 1, PFloat.val 4])] } := by
  refine ⟨by decide, by decide, ?_⟩
  rw [yoyChanges_diff_pct_column_order _ 2023 (by decide) (by decide)]
  refine congrArg Except.ok ?_
  have hcols : ((MetricsTable.mk ["msw_recycled"]
      [(2022, "SW01", [PFloat.val 1]), (2023, "SW01", [PFloat.val 5])]).cols.flatMap
        (fun c => [c ++ "_pct_change", c ++ "_" ++ toString (2023 : Int),
          c ++ "_" ++ toString ((2023 : Int) - 1), c ++ "_diff"]))
      = ["msw_recycled_pct_change", "msw_recycled_2023",
          "msw_recycled_2022", "msw_recycled_diff"] := by decide
  rw [hcols]
  refine congrArg _ ?_
  norm_num [yearSlice, cellAt, List.filterMap_cons, List.dedup, List.range_succ,
    List.lookup, PFloat.val_div_val]

/-- C5: if the target year or its predecessor is absent from the year level
of the index, the comparator raises a `ValueError` and produces no output. -/
theorem yoyChanges_missing_year_errors (t : MetricsTable) (y : Int)
    (h : (∀ r ∈ t.rows, r.1 ≠ y) ∨ (∀ r ∈ t.rows, r.1 ≠ y - 1)) :
    ∃ msg, yoyChanges t y = Except.error msg := by
  rcases h with h | h
  · refine ⟨"Current year not found in index", ?_⟩
    have hall : (t.rows.all fun r => !(r.1 == y)) = true := by
      rw [List.all_eq_true]
      intro r hr
      simpa using h r hr
    simp [yoyChanges, hall]
  · by_cases hc : (t.rows.all fun r => !(r.1 == y)) = true
    · exact ⟨"Current year not found in index", by simp [yoyChanges, hc]⟩
    · refine ⟨"Previous year not found in index", ?_⟩
      have hprev : (t.rows.all fun r => !(r.1 == y - 1)) = true := by
        rw [List.all_eq_true]
        intro r hr
        simpa using h r hr
      have hc' : (t.rows.all fun r => !(r.1 == y)) = false := by
        cases hb : (t.rows.all fun r => !(r.1 == y)) with
        | true => exact absurd hb hc
        | false => rfl
      simp [yoyChanges, hc', hprev]

/-- C5 witness: asking for 2023 against a table holding only 2021 and 2022
fails with an error. -/
theorem yoyChanges_missing_year_errors_witness :
    ((∀ r ∈ (MetricsTable.mk ["m"]
        [(2021, "SW01", [PFloat.val 1]), (2022, "SW01", [PFloat.val 2])]).rows,
      r.1 ≠ 2023)
      ∨ (∀ r ∈ (MetricsTable.mk ["m"]
          [(2021, "SW01", [PFloat.val 1]), (2022, "SW01", [PFloat.val 2])]).rows,
        r.1 ≠ 2023 - 1))
    ∧ ∃ msg, yoyChanges (MetricsTable.mk ["m"]
        [(2021, "SW01", [PFloat.val 1]), (2022, "SW01", [PFloat.val 2])]) 2023
      = Except.error msg :=
  ⟨Or.inl (by decide),
    yoyChanges_missing_year_errors _ 2023 (Or.inl (by decide))⟩

/-- An entity label occurs in a year slice iff some row of that year
carries it. -/
theorem mem_yearSlice_fst (t : MetricsTable) (y : Int) (e : String) :
    e ∈ (yearSlice t y).map Prod.fst
      ↔ ∃ r ∈ t.rows, r.1 = y ∧ r.2.1 = e := by
  simp only [yearSlice, List.mem_map, List.mem_filterMap]
  constructor
  · rintro ⟨p, ⟨r, hr, hp⟩, rfl⟩
    by_cases h : r.1 = y
    · rw [if_pos h] at hp
      refine ⟨r, hr, h, ?_⟩
      have := Option.some.inj hp
      rw [← this]
    · rw [if_neg h] at hp
      exact absurd hp (by simp)
  · rintro ⟨r, hr, hy, he⟩
    exact ⟨(r.2.1, r.2.2), ⟨r, hr, by rw [if_pos hy]⟩, he⟩

/-- A lookup over pairs none of which carry the key returns nothing. -/
theorem lookup_eq_none_of_forall {β : Type} (l : List (String × β)) (e : String)
    (h : ∀ p ∈ l, p.1 ≠ e) : l.lookup e = none := by
  induction l with
  | nil => rfl
  | cons p ps ih =>
      have hp : (e == p.1) = false := by
        have := h p (List.mem_cons_self p ps)
        simp [Ne.symm this]
      rw [List.lookup]
      rw [hp]
      exact ih (fun q hq => h q (List.mem_cons_of_mem p hq))

/-- An entity absent from a year slice reads NaN in every column. -/
theorem cellAt_eq_nan_of_absent (t : MetricsTable) (y : Int) (e : String)
    (h : ∀ r ∈ t.rows, r.1 = y → r.2.1 ≠ e) (i : Nat) :
    cellAt (yearSlice t y) e i = PFloat.nan := by
  have hnone : (yearSlice t y).lookup e = none := by
    apply lookup_eq_none_of_forall
    intro p hp
    simp only [yearSlice, List.mem_filterMap] at hp
    obtain ⟨r, hr, hif⟩ := hp
    by_cases hry : r.1 = y
    · rw [if_pos hry] at hif
      rw [← Option.some.inj hif]
      exact h r hr hry
    · rw [if_neg hry] at hif
      exact absurd hif (by simp)
  rw [cellAt, hnone]

/-- C10: for a valid target year, the comparator emits exactly one row per
entity present in either of the two years (the union of the two years'
entity labels, without duplicates); an entity present only in the current
year is retained, with NaN in the pct_change, previous-year and diff
columns that depend on the absent year. -/
theorem yoyChanges_entity_union (t : MetricsTable) (y : Int)
    (hc : ∃ r ∈ t.rows, r.1 = y) (hp : ∃ r ∈ t.rows, r.1 = y - 1) :
    ∃ out, yoyChanges t y = Except.ok out
      ∧ (out.rows.map Prod.fst).Nodup
      ∧ (∀ e, e ∈ out.rows.map Prod.fst
          ↔ ∃ r ∈ t.rows, (r.1 = y ∨ r.1 = y - 1) ∧ r.2.1 = e)
      ∧ (∀ e vals, (e, vals) ∈ out.rows →
          (∀ r ∈ t.rows, r.1 = y - 1 → r.2.1 ≠ e) →
          vals = (List.range t.cols.length).flatMap (fun i =>
            [PFloat.nan, cellAt (yearSlice t y) e i, PFloat.nan, PFloat.nan])) := by
  refine ⟨_, yoyChanges_ok t y hc hp, ?_, ?_, ?_⟩
  case _ =>
    rw [List.map_map]
    have : ((((yearSlice t y).map Prod.fst)
        ++ ((yearSlice t (y - 1)).map Prod.fst)).dedup).map
          (Prod.fst ∘ (fun e => (e, interleave [
            (List.range t.cols.length).map (fun i =>
              (cellAt (yearSlice t y) e i - cellAt (yearSlice t (y - 1)) e i)
                / cellAt (yearSlice t (y - 1)) e i * PFloat.val 100),
            (List.range t.cols.length).map (fun i => cellAt (yearSlice t y) e i),
            (List.range t.cols.length).map (fun i => cellAt (yearSlice t (y - 1)) e i),
            (List.range t.cols.length).map (fun i =>
              cellAt (yearSlice t y) e i - cellAt (yearSlice t (y - 1)) e i)])))
        = (((yearSlice t y).map Prod.fst)
            ++ ((yearSlice t (y - 1)).map Prod.fst)).dedup := by
      rw [show (Prod.fst ∘ (fun (e : String) => (e, interleave [
            (List.range t.cols.length).map (fun i =>
              (cellAt (yearSlice t y) e i - cellAt (yearSlice t (y - 1)) e i)
                / cellAt (yearSlice t (y - 1)) e i * PFloat.val 100),
            (List.range t.cols.length).map (fun i => cellAt (yearSlice t y) e i),
            (List.range t.cols.length).map (fun i => cellAt (yearSlice t (y - 1)) e i),
            (List.range t.cols.length).map (fun i =>
              cellAt (yearSlice t y) e i - cellAt (yearSlice t (y - 1)) e i)])))
          = id from rfl]
      exact List.map_id _
    rw [this]
    exact List.nodup_dedup _
  case _ =>
    intro e
    rw [List.map_map]
    constructor
    · intro he
      obtain ⟨e', he', heq⟩ := List.mem_map.mp he
      have he'' : e' = e := heq
      subst he''
      rcases List.mem_append.mp (List.mem_dedup.mp he') with hcur | hprev
      · obtain ⟨r, hr, hy, hre⟩ := (mem_yearSlice_fst t y e').mp hcur
        exact ⟨r, hr, Or.inl hy, hre⟩
      · obtain ⟨r, hr, hy, hre⟩ := (mem_yearSlice_fst t (y - 1) e').mp hprev
        exact ⟨r, hr, Or.inr hy, hre⟩
    · rintro ⟨r, hr, hy | hy, hre⟩
      · refine List.mem_map.mpr ⟨e, ?_, rfl⟩
        exact List.mem_dedup.mpr (List.mem_append.mpr (Or.inl
          ((mem_yearSlice_fst t y e).mpr ⟨r, hr, hy, hre⟩)))
      · refine List.mem_map.mpr ⟨e, ?_, rfl⟩
        exact List.mem_dedup.mpr (List.mem_append.mpr (Or.inr
          ((mem_yearSlice_fst t (y - 1) e).mpr ⟨r, hr, hy, hre⟩)))
  case _ =>
    intro e vals hmem hnoprev
    obtain ⟨e', _, heq⟩ := List.mem_map.mp hmem
    have he : e' = e := congrArg Prod.fst heq
    subst he
    have hvals : vals = interleave [
        (List.range t.cols.length).map (fun i =>
          (cellAt (yearSlice t y) e' i - cellAt (yearSlice t (y - 1)) e' i)
            / cellAt (yearSlice t (y - 1)) e' i * PFloat.val 100),
        (List.range t.cols.length).map (fun i => cellAt (yearSlice t y) e' i),
        (List.range t.cols.length).map (fun i => cellAt (yearSlice t (y - 1)) e' i),
        (List.range t.cols.length).map (fun i =>
          cellAt (yearSlice t y) e' i - cellAt (yearSlice t (y - 1)) e' i)] :=
      (congrArg Prod.snd heq).symm
    have hcell : ∀ i, cellAt (yearSlice t (y - 1)) e' i = PFloat.nan :=
      cellAt_eq_nan_of_absent t (y - 1) e' hnoprev
    rw [hvals]
    have h1 : (List.range t.cols.length).map (fun i =>
        (cellAt (yearSlice t y) e' i - cellAt (yearSlice t (y - 1)) e' i)
          / cellAt (yearSlice t (y - 1)) e' i * PFloat.val 100)
        = (List.range t.cols.length).map (fun _ => PFloat.nan) := by
      apply List.map_congr_left
      intro i _
      rw [hcell i]
      simp
    have h3 : (List.range t.cols.length).map
        (fun i => cellAt (yearSlice t (y - 1)) e' i)
        = (List.range t.cols.length).map (fun _ => PFloat.nan) := by
      apply List.map_congr_left
      intro i _
      rw [hcell i]
    have h4 : (List.range t.cols.length).map (fun i =>
        cellAt (yearSlice t y) e' i - cellAt (yearSlice t (y - 1)) e' i)
        = (List.range t.cols.length).map (fun _ => PFloat.nan) := by
      apply List.map_congr_left
      intro i _
      rw [hcell i]
      simp
    rw [h1, h3, h4, interleave_four_maps]

/-- C10 witness: entity "B" reports only in 2023; it is still one of the
output rows, with NaN in its pct_change, 2022 and diff cells. -/
theorem yoyChanges_entity_union_witness :
    (∃ r ∈ (MetricsTable.mk ["m"]
        [(2022, "A", [PFloat.val 1]), (2023, "A", [PFloat.val 2]),
          (2023, "B", [PFloat.val 7])]).rows, r.1 = 2023)
    ∧ (∃ r ∈ (MetricsTable.mk ["m"]
        [(2022, "A", [PFloat.val 1]), (2023, "A", [PFloat.val 2]),
          (2023, "B", [PFloat.val 7])]).rows, r.1 = 2023 - 1)
    ∧ ∃ out, yoyChanges (MetricsTable.mk ["m"]
        [(2022, "A", [PFloat.val 1]), (2023, "A", [PFloat.val 2]),
          (2023, "B", [PFloat.val 7])]) 2023 = Except.ok out
      ∧ (out.rows.map Prod.fst).Nodup
      ∧ (∀ e, e ∈ out.rows.map Prod.fst
          ↔ ∃ r ∈ (MetricsTable.mk ["m"]
              [(2022, "A", [PFloat.val 1]), (2023, "A", [PFloat.val 2]),
                (2023, "B", [PFloat.val 7])]).rows,
            (r.1 = 2023 ∨ r.1 = 2023 - 1) ∧ r.2.1 = e)
      ∧ (∀ e vals, (e, vals) ∈ out.rows →
          (∀ r ∈ (MetricsTable.mk ["m"]
              [(2022, "A", [PFloat.val 1]), (2023, "A", [PFloat.val 2]),
                (2023, "B", [PFloat.val 7])]).rows, r.1 = 2023 - 1 → r.2.1 ≠ e) →
          vals = (List.range (MetricsTable.mk ["m"]
              [(2022, "A", [PFloat.val 1]), (2023, "A", [PFloat.val 2]),
                (2023, "B", [PFloat.val 7])]).cols.length).flatMap (fun i =>
            [PFloat.nan,
              cellAt (yearSlice (MetricsTable.mk ["m"]
                [(2022, "A", [PFloat.val 1]), (2023, "A", [PFloat.val 2]),
                  (2023, "B", [PFloat.val 7])]) 2023) e i,
              PFloat.nan, PFloat.nan])) :=
  ⟨by decide, by decide,
    yoyChanges_entity_union _ 2023 (by decide) (by decide)⟩

/-- C7 counterexample: a "Recycling" record with `Municipal_Solid_Waste__c`
missing, `Out_of_State__c = 0` and field `F = 10` contributes 0 — not its
full field value 10 — to the summed amount: the NaN MSW percent is filled
with 0, which zeroes the record's contribution. -/
theorem ratesPerMaterial_missing_msw_counterexample :
    ((ratesPerMaterial [MatRecord.mk "Recycling" (fun c =>
        if c = "F" then PFloat.val 10
        else if c = "Out_of_State__c" then PFloat.val 0
        else PFloat.nan)] "Recycling" ["F"] "F").map (fun p => p.2.1))
      = [PFloat.val 0]
    ∧ ((ratesPerMaterial [MatRecord.mk "Recycling" (fun c =>
        if c = "F" then PFloat.val 10
        else if c = "Out_of_State__c" then PFloat.val 0
        else PFloat.nan)] "Recycling" ["F"] "F").map (fun p => p.2.1))
      ≠ [PFloat.val 10] := by
  have h : ((ratesPerMaterial [MatRecord.mk "Recycling" (fun c =>
      if c = "F" then PFloat.val 10
      else if c = "Out_of_State__c" then PFloat.val 0
      else PFloat.nan)] "Recycling" ["F"] "F").map (fun p => p.2.1))
      = [PFloat.val 0] := by
    simp +decide [ratesPerMaterial, updateFields, updateClassification, fillna0, psum,
      List.lookup, List.erase]
  refine ⟨h, ?_⟩
  rw [h]
  norm_num

/-- C7 (amended): `rates_per_material` fills a missing out-of-state or MSW
modifier with 0 instead of raising: a record whose out-of-state percent is
missing is treated as fully in-state and contributes `msw/100 * value` to
the material sum, while a record whose MSW percent is missing gets an MSW
factor of 0 and contributes 0 (not its full field value). -/
theorem ratesPerMaterial_fill_policy (m v o : ℚ) :
    ((ratesPerMaterial [MatRecord.mk "Recycling" (fun c =>
        if c = "F" then PFloat.val v
        else if c = "Municipal_Solid_Waste__c" then PFloat.val m
        else PFloat.nan)] "Recycling" ["F"] "F").map (fun p => p.2.1))
      = [PFloat.val (m / 100 * v)]
    ∧ ((ratesPerMaterial [MatRecord.mk "Recycling" (fun c =>
        if c = "F" then PFloat.val v
        else if c = "Out_of_State__c" then PFloat.val o
        else PFloat.nan)] "Recycling" ["F"] "F").map (fun p => p.2.1))
      = [PFloat.val 0] := by
  constructor
  · simp +decide [ratesPerMaterial, updateFields, updateClassification, fillna0, psum,
      List.lookup, List.erase]
  · simp +decide [ratesPerMaterial, updateFields, updateClassification, fillna0, psum,
      List.lookup, List.erase]

/-- Records share a key exactly when their projected keys agree. -/
theorem sameKey_iff (r s : SFRecord) : sameKey r s = true ↔ recKey r = recKey s := by
  simp [sameKey, recKey, Prod.ext_iff]

/-- Keeping only last occurrences selects a sublist. -/
theorem keepLast_sublist (l : List SFRecord) : List.Sublist (keepLast l) l := by
  induction l with
  | nil => exact List.Sublist.refl []
  | cons r rs ih =>
      rw [keepLast]
      split
      · exact ih.cons r
      · exact ih.cons₂ r

/-- Keeping only last occurrences retains a member of the original list. -/
theorem mem_of_mem_keepLast {s : SFRecord} {l : List SFRecord}
    (h : s ∈ keepLast l) : s ∈ l :=
  (keepLast_sublist l).mem h

/-- After keeping last occurrences, no two retained rows share a key. -/
theorem keepLast_pairwise (l : List SFRecord) :
    (keepLast l).Pairwise (fun a b => ¬ sameKey a b = true) := by
  induction l with
  | nil => exact List.Pairwise.nil
  | cons r rs ih =>
      rw [keepLast]
      split
      · exact ih
      · refine List.Pairwise.cons ?_ ih
        intro s hs hkey
        rename_i hno
        exact hno (List.any_eq_true.mpr ⟨s, mem_of_mem_keepLast hs, hkey⟩)

/-- A list with pairwise distinct keys is already fully deduplicated. -/
theorem keepLast_eq_self (l : List SFRecord)
    (h : l.Pairwise (fun a b => ¬ sameKey a b = true)) : keepLast l = l := by
  induction l with
  | nil => rfl
  | cons r rs ih =>
      rw [keepLast, if_neg, ih h.of_cons]
      intro hany
      obtain ⟨s, hs, hkey⟩ := List.any_eq_true.mp hany
      exact (List.pairwise_cons.mp h).1 s hs hkey

/-- Keeping last occurrences leaves exactly one row per key present in the
input, and none for absent keys. -/
theorem countP_keepLast (l : List SFRecord) (k : String × String) :
    (keepLast l).countP (fun s => decide (recKey s = k))
      = if l.any (fun s => decide (recKey s = k)) then 1 else 0 := by
  induction l with
  | nil => rfl
  | cons r rs ih =>
      rw [keepLast]
      by_cases hdup : rs.any (fun s => sameKey r s) = true
      · rw [if_pos hdup, ih]
        by_cases hpr : recKey r = k
        · have hany : rs.any (fun s => decide (recKey s = k)) = true := by
            obtain ⟨s, hs, hkey⟩ := List.any_eq_true.mp hdup
            refine List.any_eq_true.mpr ⟨s, hs, ?_⟩
            rw [decide_eq_true_eq, ← (sameKey_iff r s).mp hkey, hpr]
          simp [List.any_cons, hany]
        · simp [List.any_cons, hpr]
      · rw [if_neg hdup, List.countP_cons, ih]
        by_cases hpr : recKey r = k
        · have hnone : rs.any (fun s => decide (recKey s = k)) = false := by
            rcases Bool.eq_false_or_eq_true (rs.any (fun s => decide (recKey s = k)))
              with h | h
            · obtain ⟨s, hs, hkey⟩ := List.any_eq_true.mp h
              rw [decide_eq_true_eq] at hkey
              exact absurd (List.any_eq_true.mpr ⟨s, hs,
                (sameKey_iff r s).mpr (by rw [hpr, hkey])⟩) hdup
            · exact h
          simp [List.any_cons, hpr, hnone]
        · simp [List.any_cons, hpr]

/-- On a table sorted by timestamp, each retained row carries the maximal
timestamp of its key group. -/
theorem keepLast_max (l : List SFRecord)
    (hsort : l.Pairwise (fun a b => a.lastModified ≤ b.lastModified)) :
    ∀ s ∈ keepLast l, ∀ t ∈ l, recKey t = recKey s →
      t.lastModified ≤ s.lastModified := by
  induction l with
  | nil =>
      intro s hs
      cases hs
  | cons r rs ih =>
      obtain ⟨hr, hrs⟩ := List.pairwise_cons.mp hsort
      intro s hs t ht hkey
      rw [keepLast] at hs
      split at hs
      · rcases List.mem_cons.mp ht with rfl | ht'
        · exact hr s (mem_of_mem_keepLast hs)
        · exact ih hrs s hs t ht' hkey
      · rename_i hno
        rcases List.mem_cons.mp hs with rfl | hs'
        · rcases List.mem_cons.mp ht with rfl | ht'
          · exact le_refl _
          · exact absurd (List.any_eq_true.mpr
              ⟨t, ht', (sameKey_iff s t).mpr hkey.symm⟩) hno
        · rcases List.mem_cons.mp ht with rfl | ht'
          · exact hr s (mem_of_mem_keepLast hs')
          · exact ih hrs s hs' t ht' hkey

/-- C3: after deduplication exactly one row survives per
(facility_id, calendar_year) key present in the input; each surviving row
comes from the input and carries the maximal `last_modified_at` of its key
group; and deduplicating again changes nothing. -/
theorem deduplicateRecords_unique_max_idempotent (rows : List SFRecord) :
    (∀ k : String × String, (∃ r ∈ rows, recKey r = k) →
      ((deduplicateRecordsOnFacilityId rows).countP
          (fun s => decide (recKey s = k)) = 1
        ∧ ∀ s ∈ deduplicateRecordsOnFacilityId rows, recKey s = k →
            s ∈ rows ∧ ∀ t ∈ rows, recKey t = k →
              t.lastModified ≤ s.lastModified))
    ∧ deduplicateRecordsOnFacilityId (deduplicateRecordsOnFacilityId rows)
        = deduplicateRecordsOnFacilityId rows := by
  have htrans : ∀ (a b c : SFRecord),
      (decide (a.lastModified ≤ b.lastModified)) = true →
      (decide (b.lastModified ≤ c.lastModified)) = true →
      (decide (a.lastModified ≤ c.lastModified)) = true := by
    intro a b c hab hbc
    rw [decide_eq_true_eq] at hab hbc ⊢
    exact le_trans hab hbc
  have htotal : ∀ (a b : SFRecord),
      ((decide (a.lastModified ≤ b.lastModified))
        || (decide (b.lastModified ≤ a.lastModified))) = true := by
    intro a b
    rcases le_total a.lastModified b.lastModified with h | h
    · simp [h]
    · simp [h]
  have hsorted := List.sorted_mergeSort htrans htotal rows
  have hperm := List.mergeSort_perm rows
    (fun x y => decide (x.lastModified ≤ y.lastModified))
  constructor
  · intro k hk
    have hany : ((rows.mergeSort
        (fun x y => decide (x.lastModified ≤ y.lastModified))).any
        (fun s => decide (recKey s = k))) = true := by
      obtain ⟨r, hr, hrk⟩ := hk
      exact List.any_eq_true.mpr ⟨r, hperm.mem_iff.mpr hr, by simpa using hrk⟩
    constructor
    · rw [deduplicateRecordsOnFacilityId, countP_keepLast, hany]
      rfl
    · intro s hs hsk
      refine ⟨hperm.mem_iff.mp (mem_of_mem_keepLast hs), ?_⟩
      intro t ht htk
      have hsorted' : (rows.mergeSort
          (fun x y => decide (x.lastModified ≤ y.lastModified))).Pairwise
          (fun a b => a.lastModified ≤ b.lastModified) :=
        hsorted.imp (fun h => by simpa using h)
      exact keepLast_max _ hsorted' s hs t (hperm.mem_iff.mpr ht)
        (by rw [htk, hsk])
  · rw [deduplicateRecordsOnFacilityId, deduplicateRecordsOnFacilityId]
    have hsub := keepLast_sublist (rows.mergeSort
      (fun x y => decide (x.lastModified ≤ y.lastModified)))
    have hsorted2 : (keepLast (rows.mergeSort
        (fun x y => decide (x.lastModified ≤ y.lastModified)))).Pairwise
        (fun a b => (decide (a.lastModified ≤ b.lastModified)) = true) :=
      hsorted.sublist hsub
    rw [List.mergeSort_of_sorted hsorted2]
    exact keepLast_eq_self _ (keepLast_pairwise _)

/-- C3 witness: with duplicate (facility 1, year 2022) rows at timestamps
1 and 3, deduplication keeps exactly one row for that key and running it
again changes nothing. -/
theorem deduplicateRecords_unique_max_idempotent_witness :
    (∃ r ∈ [SFRecord.mk "1" "2022" 1 1, SFRecord.mk "2" "2022" 2 2,
        SFRecord.mk "1" "2022" 3 3], recKey r = ("1", "2022"))
    ∧ (deduplicateRecordsOnFacilityId [SFRecord.mk "1" "2022" 1 1,
        SFRecord.mk "2" "2022" 2 2, SFRecord.mk "1" "2022" 3 3]).countP
        (fun s => decide (recKey s = ("1", "2022"))) = 1
    ∧ deduplicateRecordsOnFacilityId (deduplicateRecordsOnFacilityId
        [SFRecord.mk "1" "2022" 1 1, SFRecord.mk "2" "2022" 2 2,
          SFRecord.mk "1" "2022" 3 3])
      = deduplicateRecordsOnFacilityId [SFRecord.mk "1" "2022" 1 1,
          SFRecord.mk "2" "2022" 2 2, SFRecord.mk "1" "2022" 3 3] := by
  refine ⟨by decide, ?_, ?_⟩
  · exact ((deduplicateRecords_unique_max_idempotent _).1 ("1", "2022")
      (by decide)).1
  · exact (deduplicateRecords_unique_max_idempotent _).2
